import Mathlib

/-!
Verification development for the MPD sources
`src/mixer/plugins/WinmmMixerPlugin.cxx` and
`src/encoder/VorbisEncoderPlugin.cxx`.

The C code is shallowly embedded: pure helpers become Lean functions,
the encoder session becomes explicit state passing on a state record,
and the external collaborators (libvorbis analysis, the Ogg stream
wrapper, glib string parsing, the random source) are modelled from the
specification as opaque inputs or event logs.
-/

set_option autoImplicit false

/-!
## Part 1: Winmm mixer volume conversion

`winmm_volume_decode` / `winmm_volume_encode` compute with C `double`
arithmetic (`lround`, the literal `655.35`, one multiplication or one
division).  IEEE-754 binary64 arithmetic on the values that occur here
(normal range, far from overflow/underflow) is exact rational
arithmetic followed by rounding to 53 significant bits, round half to
even.  We embed it that way: `Q2` is an unreduced fraction of integers
with positive denominator, `roundToDouble` rounds a `Q2` to the nearest
binary64 value, and each C floating-point operation is one exact
rational operation followed by one `roundToDouble`.
-/

/-- An unreduced fraction `num / den`; every constructor in this file
keeps `den > 0`. -/
structure Q2 where
  num : Int
  den : Int
deriving Repr

/-- Multiply / divide a fraction by `2 ^ e` (`e` may be negative). -/
def Q2.shift2 (x : Q2) (e : Int) : Q2 :=
  if 0 ≤ e then ⟨x.num * 2 ^ e.toNat, x.den⟩
  else ⟨x.num, x.den * 2 ^ (-e).toNat⟩

/-- `⌊num / den⌋` for `den > 0` (Euclidean division floors there). -/
def Q2.floor (x : Q2) : Int :=
  Int.ediv x.num x.den

/-- Round a fraction (with positive denominator) to the nearest
integer, ties to even — the IEEE-754 default rounding applied to an
integer target. -/
def Q2.roundHalfEven (x : Q2) : Int :=
  let n := x.floor
  let twiceRem := 2 * (x.num - n * x.den)
  if twiceRem < x.den then n
  else if x.den < twiceRem then n + 1
  else if Int.emod n 2 = 0 then n else n + 1

/-- `⌊log₂ x⌋` for a positive fraction, by fuel-bounded scanning;
`fuel = 200` covers every magnitude reachable in this file. -/
def ilog2Aux : Nat → Int → Int → Int
  | 0, _, _ => 0
  | fuel + 1, n, d =>
    if n < d then ilog2Aux fuel (2 * n) d - 1
    else if n < 2 * d then 0
    else ilog2Aux fuel n (2 * d) + 1

def Q2.ilog2 (x : Q2) : Int :=
  ilog2Aux 200 x.num x.den

/-- Round an exact rational to the nearest IEEE-754 binary64 value
(normal range only, which covers all values arising here): scale into
the binade, keep 53 significant bits, round half to even. -/
def roundToDouble (x : Q2) : Q2 :=
  if x.num = 0 then ⟨0, 1⟩
  else if 0 ≤ x.num then
    let k := x.ilog2
    let m := (x.shift2 (52 - k)).roundHalfEven
    (Q2.mk m 1).shift2 (k - 52)
  else
    let y : Q2 := ⟨-x.num, x.den⟩
    let k := y.ilog2
    let m := (y.shift2 (52 - k)).roundHalfEven
    (Q2.mk (-m) 1).shift2 (k - 52)

/-- C `lround`: round to nearest integer, halfway cases away from
zero. -/
def lroundQ (x : Q2) : Int :=
  if 0 ≤ x.num then Q2.floor ⟨2 * x.num + x.den, 2 * x.den⟩
  else -Q2.floor ⟨2 * (-x.num) + x.den, 2 * x.den⟩

/-- The binary64 value of the source literal `655.35`
(= `65535 / 100` rounded to the nearest double by the compiler). -/
def d655 : Q2 :=
  roundToDouble ⟨13107, 20⟩

/-- `winmm_volume_encode(volume)`:
`int value = lround(volume * 655.35); return MAKELONG(value, value);`.
The DWORD result is represented as an integer in `[0, 2^32)`;
`MAKELONG(a, b) = (a & 0xffff) | ((b & 0xffff) << 16)`. -/
def winmm_volume_encode (volume : Int) : Int :=
  let value := lroundQ (roundToDouble ⟨volume * d655.num, d655.den⟩)
  let lo := Int.emod value 65536
  lo + lo * 65536

/-- `winmm_volume_decode(volume)`:
`lround((volume & 0xFFFF) / 655.35)`. -/
def winmm_volume_decode (volume : Int) : Int :=
  lroundQ (roundToDouble ⟨Int.emod volume 65536 * d655.den, d655.num⟩)

/-- Decidable finite form of the C10 round-trip property, checked for
every volume in `[0, 100]`. -/
def winmmRoundTripUpTo (bound : Nat) : Bool :=
  (List.range (bound + 1)).all (fun v =>
    let e := winmm_volume_encode (Int.ofNat v)
    decide (winmm_volume_decode e = Int.ofNat v) &&
    decide (Int.emod e 65536 = Int.emod (Int.ediv e 65536) 65536))

/-!
## Part 2: Vorbis encoder session model

Embedding of `src/encoder/VorbisEncoderPlugin.cxx`.  The definitions
keep the source function names.  External collaborators are modelled:

* libvorbis (`vorbis_dsp_state`, `vorbis_block`, `vorbis_analysis_*`,
  `vorbis_bitrate_*`) — per the spec, an opaque capability "given N
  audio frames, possibly produce zero or more compressed packets".
  The packets a `vorbis_analysis_wrote` call makes available are given
  by an oracle parameter; `vorbis_encoder_blockout`'s drain loop moves
  every pending packet into the container stream.  The `vorbis_block`
  working buffer is folded into `vorbis_dsp_state`.
* `OggStream` (`OggStream.hxx`, a repository file not among the shown
  sources) — modelled from the spec §4.3: it owns the logical-stream
  serial and, for verification, a log of the submission events
  (`begin` on Initialize/Reinitialize, one `packet` per `PacketIn`,
  `flushPages` per `Flush`).
* `audio_format.h` — modelled from the spec §3: a frame holds one
  sample per channel; a float sample is 4 bytes.
* glib string parsing (`g_ascii_strtod` / `g_ascii_strtoll`) — each
  supplied configuration string is modelled by its parse result:
  the parsed value plus whether the whole string was consumed
  (`*endptr == '\0'`).
-/

inductive SampleFormat where
  | undefined
  | s8
  | s16
  | s24_p32
  | s32
  | float
deriving DecidableEq, Repr

/-- Modelled from the spec: `struct audio_format` of `audio_format.h`
(§3 AudioFormat — channel count, sample rate, sample representation). -/
structure audio_format where
  sample_rate : Nat
  format : SampleFormat
  channels : Nat
deriving DecidableEq, Repr

/-- Modelled from the spec: byte width of one sample of the given
representation (float samples are 4 bytes). -/
def audio_format_sample_size : SampleFormat → Nat
  | .undefined => 0
  | .s8 => 1
  | .s16 => 2
  | .s24_p32 => 4
  | .s32 => 4
  | .float => 4

/-- Modelled from the spec: `audio_format_frame_size` — one sample per
channel. -/
def audio_format_frame_size (af : audio_format) : Nat :=
  audio_format_sample_size af.format * af.channels

/-- One compressed packet submitted to the container: the three header
packets produced by `vorbis_analysis_headerout` (identification,
comments, codec setup codebooks) or an audio packet produced by the
analysis pipeline. -/
inductive OggPacket where
  | ident
  | comments (vc : List (String × String))
  | codebooks
  | audio (blockId : Nat)
deriving DecidableEq, Repr

def OggPacket.isAudio : OggPacket → Bool
  | .audio _ => true
  | _ => false

/-- Observable interaction with the container stream, oldest first. -/
inductive StreamEvent where
  | begin (serial : Nat)
  | packet (p : OggPacket)
  | flushPages
deriving DecidableEq, Repr

/-- Modelled from the spec (§4.3 Container Stream Wrapper, file
`OggStream.hxx` not among the shown sources): the logical-stream
serial plus the log of submissions. -/
structure OggStream where
  serial : Nat
  events : List StreamEvent
deriving Repr

def OggStream.Initialize (s : OggStream) (serial : Nat) : OggStream :=
  ⟨serial, s.events ++ [.begin serial]⟩

/-- `restart`: end the current logical stream and begin a new one with
a fresh identifier (spec §4.3). -/
def OggStream.Reinitialize (s : OggStream) (serial : Nat) : OggStream :=
  s.Initialize serial

def OggStream.PacketIn (s : OggStream) (p : OggPacket) : OggStream :=
  { s with events := s.events ++ [.packet p] }

def OggStream.Flush (s : OggStream) : OggStream :=
  { s with events := s.events ++ [.flushPages] }

/-- The perceptual-model descriptor (`vorbis_info`): the parameters
`vorbis_encode_init_vbr` / `vorbis_encode_init` validated. -/
structure vorbis_info where
  channels : Nat
  sample_rate : Nat
  quality : Rat
  bitrate : Int
deriving DecidableEq, Repr

/-- Modelled from the spec: libvorbis analysis state
(`vorbis_dsp_state` with the `vorbis_block` working buffer folded in):
the model descriptor it was derived from, the per-channel planar
analysis buffer (`vorbis_analysis_buffer`), the packets analysed but
not yet drained, the number of frames reported via
`vorbis_analysis_wrote`, and the end-of-stream marker set by
`vorbis_analysis_wrote(vd, 0)`. -/
structure vorbis_dsp_state where
  vi : vorbis_info
  buffer : Nat → Nat → Rat
  pending : List OggPacket
  frames : Nat
  eos : Bool

/-- `vorbis_analysis_init` (+ `vorbis_block_init`): fresh analysis
state derived from the model descriptor. -/
def vorbis_analysis_init (vi : vorbis_info) : vorbis_dsp_state :=
  ⟨vi, fun _ _ => 0, [], 0, false⟩

/-- `vorbis_analysis_wrote(vd, n)`: report `n` frames to the analysis
accumulator; `n = 0` marks end of stream.  The opaque analysis
capability is the `oracle`: the audio packets that become available
for draining after this call. -/
def vorbis_analysis_wrote (oracle : Nat → List Nat)
    (vd : vorbis_dsp_state) (n : Nat) : vorbis_dsp_state :=
  { vd with
    eos := if n = 0 then true else vd.eos
    pending := vd.pending ++ (oracle n).map OggPacket.audio
    frames := vd.frames + n }

/-- `struct vorbis_encoder`: configuration, runtime audio format,
codec state and the container stream. -/
structure vorbis_encoder where
  quality : Rat
  bitrate : Int
  audio_format : audio_format
  vd : vorbis_dsp_state
  stream : OggStream

/-- Result of `g_ascii_strtod` on a supplied string: parsed value and
whether the whole string was consumed (`*endptr == '\0'`). -/
structure strtod_result where
  value : Rat
  complete : Bool
deriving DecidableEq, Repr

/-- Result of `g_ascii_strtoll` on a supplied string. -/
structure strtoll_result where
  value : Int
  complete : Bool
deriving DecidableEq, Repr

inductive ConfigError where
  | InvalidQuality
  | InvalidBitrate
  | ConflictingMode
  | MissingMode
deriving DecidableEq, Repr

inductive EncodingMode where
  | variableQuality (q : Rat)
  | constantBitrate (kbps : Int)
deriving DecidableEq, Repr

/-- `vorbis_encoder_configure`: `quality` / `bitrate` are the results
of `config_get_block_string` + parse for the two keys (`none` when the
key is absent). -/
def vorbis_encoder_configure (e : vorbis_encoder)
    (quality : Option strtod_result) (bitrate : Option strtoll_result) :
    Except ConfigError vorbis_encoder :=
  match quality with
  | some q =>
    let e1 := { e with quality := q.value }
    if q.complete = false ∨ q.value < -1 ∨ q.value > 10 then
      Except.error ConfigError.InvalidQuality
    else if bitrate.isSome then
      Except.error ConfigError.ConflictingMode
    else
      Except.ok e1
  | none =>
    match bitrate with
    | none => Except.error ConfigError.MissingMode
    | some b =>
      let e1 := { e with quality := -2 }
      if b.complete = false ∨ b.value ≤ 0 then
        Except.error ConfigError.InvalidBitrate
      else
        Except.ok { e1 with bitrate := b.value }

/-- The encoding mode a configured session is in, as
`vorbis_encoder_reinit` determines it (`quality >= -1.0` selects
VBR). -/
def vorbis_encoder.mode (e : vorbis_encoder) : EncodingMode :=
  if -1 ≤ e.quality then EncodingMode.variableQuality e.quality
  else EncodingMode.constantBitrate e.bitrate

/-- `vorbis_encoder_reinit`: build the model descriptor from the
stored audio format and mode, initialize analysis state, begin the
container stream with a random serial.  `codec_accepts` models
whether `vorbis_encode_init_vbr` / `vorbis_encode_init` (external
libvorbis) accept the parameters; `r` models `g_random_int()`. -/
def vorbis_encoder_reinit (codec_accepts : Bool) (r : Nat)
    (e : vorbis_encoder) : Option vorbis_encoder :=
  if codec_accepts then
    let vi : vorbis_info :=
      ⟨e.audio_format.channels, e.audio_format.sample_rate,
       e.quality, e.bitrate⟩
    some { e with vd := vorbis_analysis_init vi
                  stream := e.stream.Initialize r }
  else none

/-- `vorbis_encoder_headerout`: `vorbis_analysis_headerout` builds the
identification, comments and codebooks packets, and each is submitted,
in that order. -/
def vorbis_encoder_headerout (e : vorbis_encoder)
    (vc : List (String × String)) : vorbis_encoder :=
  { e with stream :=
      ((e.stream.PacketIn OggPacket.ident).PacketIn
        (OggPacket.comments vc)).PacketIn OggPacket.codebooks }

/-- `vorbis_encoder_send_header`: header packets from an empty
`vorbis_comment`. -/
def vorbis_encoder_send_header (e : vorbis_encoder) : vorbis_encoder :=
  vorbis_encoder_headerout e []

/-- `vorbis_encoder_open`: forces the caller's format descriptor to
float samples, stores it, reinitializes codec + stream, emits the
header packets.  Returns the encoder (mutated in place in the C code
even on failure), the mutated format descriptor, and the success
flag. -/
def vorbis_encoder_open (codec_accepts : Bool) (r : Nat)
    (e : vorbis_encoder) (af : audio_format) :
    vorbis_encoder × audio_format × Bool :=
  let af1 := { af with format := SampleFormat.float }
  let e1 := { e with audio_format := af1 }
  match vorbis_encoder_reinit codec_accepts r e1 with
  | none => (e1, af1, false)
  | some e2 => (vorbis_encoder_send_header e2, af1, true)

/-- `vorbis_encoder_blockout`: drain loop — while analysis blocks are
available, run analysis and bitrate management and submit every
flushed packet to the stream; afterwards nothing is pending. -/
def vorbis_encoder_blockout (e : vorbis_encoder) : vorbis_encoder :=
  { e with
    vd := { e.vd with pending := [] }
    stream := e.vd.pending.foldl (fun st p => st.PacketIn p) e.stream }

/-- `vorbis_encoder_flush`: force page emission. -/
def vorbis_encoder_flush (e : vorbis_encoder) : vorbis_encoder × Bool :=
  ({ e with stream := e.stream.Flush }, true)

/-- `vorbis_encoder_pre_tag`: mark segment end (`wrote 0`), drain,
reinitialize `vorbis_dsp_state`/`vorbis_block` from the unchanged
`vorbis_info` to clear the end-of-stream marker, force a flush. -/
def vorbis_encoder_pre_tag (oracle : Nat → List Nat)
    (e : vorbis_encoder) : vorbis_encoder × Bool :=
  let vd1 := vorbis_analysis_wrote oracle e.vd 0
  let e1 := vorbis_encoder_blockout { e with vd := vd1 }
  let e2 := { e1 with vd := vorbis_analysis_init e1.vd.vi }
  ({ e2 with stream := e2.stream.Flush }, true)

/-- One tag item: `TagItem` (tag type enumeration value and text). -/
structure TagItem where
  type : Nat
  value : String
deriving DecidableEq, Repr

/-- `struct Tag`: ordered item sequence (`num_items` is the length). -/
structure Tag where
  items : List TagItem
deriving DecidableEq, Repr

/-- `copy_tag_to_vorbis_comment`: for each item, add the upper-cased
canonical name of its type with the item's value.  `tag_item_names`
(the repository's name table) and `g_ascii_strup` (glib) are external
inputs. -/
def copy_tag_to_vorbis_comment (tag_item_names : Nat → String)
    (g_ascii_strup : String → String) (tag : Tag) :
    List (String × String) :=
  tag.items.map (fun item =>
    (g_ascii_strup (tag_item_names item.type), item.value))

/-- `vorbis_encoder_tag`: build the comment from the tag, restart the
stream with a fresh random serial, re-emit the header packets.  The
codec state is not touched. -/
def vorbis_encoder_tag (tag_item_names : Nat → String)
    (g_ascii_strup : String → String) (tag : Tag) (r : Nat)
    (e : vorbis_encoder) : vorbis_encoder × Bool :=
  let comment := copy_tag_to_vorbis_comment tag_item_names g_ascii_strup tag
  let e1 := { e with stream := e.stream.Reinitialize r }
  (vorbis_encoder_headerout e1 comment, true)

/-- Pointwise update of the planar analysis buffer:
`dest[j][i] = v`. -/
def bufUpdate (d : Nat → Nat → Rat) (j i : Nat) (v : Rat) :
    Nat → Nat → Rat :=
  fun j1 i1 => if j1 = j ∧ i1 = i then v else d j1 i1

/-- Inner loop of `interleaved_to_vorbis_buffer`: `cnt` remaining
channels starting at channel `j`, reading `src` at the running
pointer `ptr` (`dest[j][i] = *src++`). -/
def ivb_chan (src : Nat → Rat) (i : Nat) :
    Nat → Nat → Nat → (Nat → Nat → Rat) → (Nat → Nat → Rat) × Nat
  | 0, _, ptr, d => (d, ptr)
  | cnt + 1, j, ptr, d =>
    ivb_chan src i cnt (j + 1) (ptr + 1) (bufUpdate d j i (src ptr))

/-- Outer loop of `interleaved_to_vorbis_buffer`: `cnt` remaining
frames starting at frame `i`. -/
def ivb_frames (src : Nat → Rat) (c : Nat) :
    Nat → Nat → Nat → (Nat → Nat → Rat) → Nat → Nat → Rat
  | 0, _, _, d => d
  | cnt + 1, i, ptr, d =>
    let r := ivb_chan src i c 0 ptr d
    ivb_frames src c cnt (i + 1) r.2 r.1

/-- `interleaved_to_vorbis_buffer(dest, src, num_frames,
num_channels)`: de-interleave `num_frames` frames from `src` into the
per-channel planar buffer. -/
def interleaved_to_vorbis_buffer (src : Nat → Rat)
    (num_frames num_channels : Nat) : Nat → Nat → Rat :=
  ivb_frames src num_channels num_frames 0 0 (fun _ _ => 0)

/-- `vorbis_encoder_write`: frame count by integer division of the
byte length by the frame size, de-interleave into the analysis buffer,
report the frames, drain. -/
def vorbis_encoder_write (oracle : Nat → List Nat) (e : vorbis_encoder)
    (src : Nat → Rat) (length : Nat) : vorbis_encoder × Bool :=
  let num_frames := length / audio_format_frame_size e.audio_format
  let vd1 := { e.vd with
    buffer := interleaved_to_vorbis_buffer src num_frames
      e.audio_format.channels }
  let vd2 := vorbis_analysis_wrote oracle vd1 num_frames
  (vorbis_encoder_blockout { e with vd := vd2 }, true)

/-- A session operation after `open` (`read` = `vorbis_encoder_read`,
which per spec §4.3/§5 only copies ready page bytes and has no effect
on codec state or the serial). -/
inductive EncoderOp where
  | write (src : Nat → Rat) (length : Nat)
  | flush
  | preTag
  | updateTag (t : Tag) (r : Nat)
  | readOut (n : Nat)

def applyOp (oracle : Nat → List Nat) (tag_item_names : Nat → String)
    (g_ascii_strup : String → String) (e : vorbis_encoder) :
    EncoderOp → vorbis_encoder
  | .write src len => (vorbis_encoder_write oracle e src len).1
  | .flush => (vorbis_encoder_flush e).1
  | .preTag => (vorbis_encoder_pre_tag oracle e).1
  | .updateTag t r => (vorbis_encoder_tag tag_item_names g_ascii_strup t r e).1
  | .readOut _ => e

def runOps (oracle : Nat → List Nat) (tag_item_names : Nat → String)
    (g_ascii_strup : String → String) (e : vorbis_encoder)
    (ops : List EncoderOp) : vorbis_encoder :=
  ops.foldl (applyOp oracle tag_item_names g_ascii_strup) e

/-- Header-emission checker state for one logical stream: which of the
three header packets is due next. -/
inductive HdrMode where
  | needIdent
  | needComments
  | needCodebooks
  | streaming
deriving DecidableEq, Repr

/-- One step of the header-ordering checker: a `begin` opens a segment
that must continue with identification, comments, codebooks, in that
order, before any audio packet; `none` = ordering violated. -/
def hdrStep : Option HdrMode → StreamEvent → Option HdrMode
  | some _, .begin _ => some HdrMode.needIdent
  | some HdrMode.needIdent, .packet OggPacket.ident =>
      some HdrMode.needComments
  | some HdrMode.needComments, .packet (OggPacket.comments _) =>
      some HdrMode.needCodebooks
  | some HdrMode.needCodebooks, .packet OggPacket.codebooks =>
      some HdrMode.streaming
  | some HdrMode.streaming, .packet (OggPacket.audio _) =>
      some HdrMode.streaming
  | some m, .flushPages => some m
  | _, _ => none

def hdrCheck (l : List StreamEvent) : Option HdrMode :=
  l.foldl hdrStep (some HdrMode.streaming)

/-- Number of `updateTag` operations in a trace. -/
def countTagUpdates : List EncoderOp → Nat
  | [] => 0
  | EncoderOp.updateTag _ _ :: rest => countTagUpdates rest + 1
  | _ :: rest => countTagUpdates rest

/-- Number of steps of a trace at which the logical-stream serial
changes. -/
def serialChanges (oracle : Nat → List Nat) (tag_item_names : Nat → String)
    (g_ascii_strup : String → String) (e : vorbis_encoder) :
    List EncoderOp → Nat
  | [] => 0
  | op :: rest =>
    let e1 := applyOp oracle tag_item_names g_ascii_strup e op
    (if e1.stream.serial = e.stream.serial then 0 else 1) +
      serialChanges oracle tag_item_names g_ascii_strup e1 rest

/-- The random serials supplied to the `updateTag` operations of a
trace are fresh: each differs from the serial current when it is
used. -/
def freshSerials (oracle : Nat → List Nat) (tag_item_names : Nat → String)
    (g_ascii_strup : String → String) (e : vorbis_encoder) :
    List EncoderOp → Bool
  | [] => true
  | op :: rest =>
    (match op with
     | EncoderOp.updateTag _ r => r != e.stream.serial
     | _ => true) &&
    freshSerials oracle tag_item_names g_ascii_strup
      (applyOp oracle tag_item_names g_ascii_strup e op) rest

/-- Concrete inputs for witnesses and counterexamples. -/
def noOracle : Nat → List Nat := fun _ => []

def oneBlockOracle : Nat → List Nat := fun n => [n]

def sampleNames : Nat → String := fun _ => "artist"

def sampleUp : String → String := fun s => s

def sampleTag : Tag := ⟨[⟨0, "x"⟩]⟩

def sampleEncoder : vorbis_encoder :=
  { quality := 5
    bitrate := 0
    audio_format := ⟨44100, SampleFormat.float, 2⟩
    vd := vorbis_analysis_init ⟨2, 44100, 5, 0⟩
    stream := ⟨0, []⟩ }

/-- A session state whose codec end-of-stream marker is set (as after
`vorbis_analysis_wrote(vd, 0)`). -/
def eosEncoder : vorbis_encoder :=
  { sampleEncoder with
    vd := { sampleEncoder.vd with eos := true } }

def sampleSrc : Nat → Rat := fun n => (n : Rat)

def EncoderOp.isUpdateTag : EncoderOp → Bool
  | .updateTag _ _ => true
  | _ => false

/-- Invariant carried along a trace: the stream log satisfies the
header-ordering checker with the current segment fully headed, and
every packet still pending in the codec is an audio packet. -/
def goodState (e : vorbis_encoder) : Prop :=
  hdrCheck e.stream.events = some HdrMode.streaming ∧
  ∀ p ∈ e.vd.pending, p.isAudio = true

/-!
## Part 3: helper lemmas
-/

theorem foldl_PacketIn_events (l : List OggPacket) (st : OggStream) :
    (l.foldl (fun s p => s.PacketIn p) st).events =
      st.events ++ l.map StreamEvent.packet := by
  induction l generalizing st with
  | nil => simp
  | cons p rest ih =>
    rw [List.foldl_cons, ih]
    simp [OggStream.PacketIn]

theorem foldl_PacketIn_serial (l : List OggPacket) (st : OggStream) :
    (l.foldl (fun s p => s.PacketIn p) st).serial = st.serial := by
  induction l generalizing st with
  | nil => rfl
  | cons p rest ih =>
    rw [List.foldl_cons, ih]
    rfl

theorem hdrCheck_append (l d : List StreamEvent) :
    hdrCheck (l ++ d) = d.foldl hdrStep (hdrCheck l) := by
  simp [hdrCheck, List.foldl_append]

theorem hdrStep_audio_all (ps : List OggPacket)
    (h : ∀ p ∈ ps, p.isAudio = true) :
    (ps.map StreamEvent.packet).foldl hdrStep (some HdrMode.streaming) =
      some HdrMode.streaming := by
  induction ps with
  | nil => rfl
  | cons p rest ih =>
    have hp : p.isAudio = true := h p (List.mem_cons_self p rest)
    cases p with
    | audio k =>
      simpa [hdrStep] using ih (fun q hq => h q (List.mem_cons_of_mem _ hq))
    | ident => simp [OggPacket.isAudio] at hp
    | comments vc => simp [OggPacket.isAudio] at hp
    | codebooks => simp [OggPacket.isAudio] at hp

theorem write_stream_events (oracle : Nat → List Nat) (e : vorbis_encoder)
    (src : Nat → Rat) (len : Nat) :
    (vorbis_encoder_write oracle e src len).1.stream.events =
      e.stream.events ++
        (e.vd.pending ++
          (oracle (len / audio_format_frame_size e.audio_format)).map
            OggPacket.audio).map StreamEvent.packet := by
  simp [vorbis_encoder_write, vorbis_encoder_blockout, vorbis_analysis_wrote,
    foldl_PacketIn_events]

theorem write_stream_serial (oracle : Nat → List Nat) (e : vorbis_encoder)
    (src : Nat → Rat) (len : Nat) :
    (vorbis_encoder_write oracle e src len).1.stream.serial =
      e.stream.serial := by
  simp [vorbis_encoder_write, vorbis_encoder_blockout, vorbis_analysis_wrote,
    foldl_PacketIn_serial]

theorem pre_tag_stream_events (oracle : Nat → List Nat) (e : vorbis_encoder) :
    (vorbis_encoder_pre_tag oracle e).1.stream.events =
      e.stream.events ++
        (e.vd.pending ++ (oracle 0).map OggPacket.audio).map
          StreamEvent.packet ++ [StreamEvent.flushPages] := by
  simp [vorbis_encoder_pre_tag, vorbis_encoder_blockout, vorbis_analysis_wrote,
    OggStream.Flush, foldl_PacketIn_events]

theorem pre_tag_stream_serial (oracle : Nat → List Nat) (e : vorbis_encoder) :
    (vorbis_encoder_pre_tag oracle e).1.stream.serial = e.stream.serial := by
  simp [vorbis_encoder_pre_tag, vorbis_encoder_blockout, vorbis_analysis_wrote,
    OggStream.Flush, foldl_PacketIn_serial]

theorem tag_stream_events (names : Nat → String) (up : String → String)
    (t : Tag) (r : Nat) (e : vorbis_encoder) :
    (vorbis_encoder_tag names up t r e).1.stream.events =
      e.stream.events ++
        [StreamEvent.begin r, StreamEvent.packet OggPacket.ident,
         StreamEvent.packet
           (OggPacket.comments (copy_tag_to_vorbis_comment names up t)),
         StreamEvent.packet OggPacket.codebooks] := by
  simp [vorbis_encoder_tag, vorbis_encoder_headerout, OggStream.PacketIn,
    OggStream.Reinitialize, OggStream.Initialize, List.append_assoc]

theorem applyOp_goodState (oracle : Nat → List Nat)
    (names : Nat → String) (up : String → String)
    (e : vorbis_encoder) (op : EncoderOp) (h : goodState e) :
    goodState (applyOp oracle names up e op) := by
  obtain ⟨hev, hpend⟩ := h
  cases op with
  | write src len =>
    constructor
    · rw [applyOp, write_stream_events, hdrCheck_append, hev]
      apply hdrStep_audio_all
      intro p hp
      rcases List.mem_append.mp hp with hp1 | hp2
      · exact hpend p hp1
      · obtain ⟨k, _, rfl⟩ := List.mem_map.mp hp2
        rfl
    · intro p hp
      simp [applyOp, vorbis_encoder_write, vorbis_encoder_blockout] at hp
  | flush =>
    constructor
    · rw [applyOp]
      show hdrCheck (e.stream.events ++ [StreamEvent.flushPages]) = _
      rw [hdrCheck_append, hev]
      rfl
    · exact hpend
  | preTag =>
    constructor
    · rw [applyOp, pre_tag_stream_events, List.append_assoc, hdrCheck_append,
        hev, List.foldl_append]
      rw [hdrStep_audio_all]
      · rfl
      · intro p hp
        rcases List.mem_append.mp hp with hp1 | hp2
        · exact hpend p hp1
        · obtain ⟨k, _, rfl⟩ := List.mem_map.mp hp2
          rfl
    · intro p hp
      simp [applyOp, vorbis_encoder_pre_tag, vorbis_encoder_blockout,
        vorbis_analysis_init] at hp
  | updateTag t r =>
    constructor
    · rw [applyOp, tag_stream_events, hdrCheck_append, hev]
      rfl
    · exact hpend
  | readOut n =>
    exact ⟨hev, hpend⟩

theorem runOps_goodState (oracle : Nat → List Nat)
    (names : Nat → String) (up : String → String)
    (e : vorbis_encoder) (ops : List EncoderOp) (h : goodState e) :
    goodState (runOps oracle names up e ops) := by
  induction ops generalizing e with
  | nil => exact h
  | cons op rest ih =>
    exact ih (applyOp oracle names up e op)
      (applyOp_goodState oracle names up e op h)

theorem applyOp_serial_nonTag (oracle : Nat → List Nat)
    (names : Nat → String) (up : String → String)
    (e : vorbis_encoder) (op : EncoderOp)
    (h : op.isUpdateTag = false) :
    (applyOp oracle names up e op).stream.serial = e.stream.serial := by
  cases op with
  | write src len => exact write_stream_serial oracle e src len
  | flush => rfl
  | preTag => exact pre_tag_stream_serial oracle e
  | updateTag t r => simp [EncoderOp.isUpdateTag] at h
  | readOut n => rfl

theorem applyOp_serial_tag (oracle : Nat → List Nat)
    (names : Nat → String) (up : String → String)
    (e : vorbis_encoder) (t : Tag) (r : Nat) :
    (applyOp oracle names up e (EncoderOp.updateTag t r)).stream.serial = r := by
  rfl

theorem ivb_chan_ptr (src : Nat → Rat) (i : Nat) :
    ∀ (cnt j ptr : Nat) (d : Nat → Nat → Rat),
      (ivb_chan src i cnt j ptr d).2 = ptr + cnt := by
  intro cnt
  induction cnt with
  | zero => intro j ptr d; rfl
  | succ n ih =>
    intro j ptr d
    rw [ivb_chan, ih]
    omega

theorem ivb_chan_ne_row (src : Nat → Rat) (i j0 i0 : Nat) (hne : i0 ≠ i) :
    ∀ (cnt j ptr : Nat) (d : Nat → Nat → Rat),
      (ivb_chan src i cnt j ptr d).1 j0 i0 = d j0 i0 := by
  intro cnt
  induction cnt with
  | zero => intro j ptr d; rfl
  | succ n ih =>
    intro j ptr d
    rw [ivb_chan, ih]
    simp [bufUpdate, hne]

theorem ivb_chan_low (src : Nat → Rat) (i j0 i0 : Nat) :
    ∀ (cnt j ptr : Nat) (d : Nat → Nat → Rat), j0 < j →
      (ivb_chan src i cnt j ptr d).1 j0 i0 = d j0 i0 := by
  intro cnt
  induction cnt with
  | zero => intro j ptr d _; rfl
  | succ n ih =>
    intro j ptr d hj
    rw [ivb_chan, ih (j + 1) (ptr + 1) _ (by omega)]
    simp [bufUpdate]
    intro hj0
    omega

theorem ivb_chan_hit (src : Nat → Rat) (i : Nat) :
    ∀ (cnt k j ptr : Nat) (d : Nat → Nat → Rat), k < cnt →
      (ivb_chan src i cnt j ptr d).1 (j + k) i = src (ptr + k) := by
  intro cnt
  induction cnt with
  | zero => intro k j ptr d hk; omega
  | succ n ih =>
    intro k j ptr d hk
    rw [ivb_chan]
    cases k with
    | zero =>
      rw [ivb_chan_low src i (j + 0) i n (j + 1) (ptr + 1) _ (by omega)]
      simp [bufUpdate]
    | succ m =>
      have : j + (m + 1) = (j + 1) + m := by omega
      rw [this, ih m (j + 1) (ptr + 1) _ (by omega)]
      congr 1
      omega

theorem ivb_frames_low (src : Nat → Rat) (c j0 i0 : Nat) :
    ∀ (cnt i ptr : Nat) (d : Nat → Nat → Rat), i0 < i →
      ivb_frames src c cnt i ptr d j0 i0 = d j0 i0 := by
  intro cnt
  induction cnt with
  | zero => intro i ptr d _; rfl
  | succ n ih =>
    intro i ptr d hi
    rw [ivb_frames]
    rw [ih (i + 1) _ _ (by omega)]
    exact ivb_chan_ne_row src i j0 i0 (by omega) c 0 ptr d

theorem ivb_frames_hit (src : Nat → Rat) (c : Nat) :
    ∀ (cnt f i ptr : Nat) (d : Nat → Nat → Rat) (j0 : Nat),
      f < cnt → j0 < c →
      ivb_frames src c cnt i ptr d j0 (i + f) = src (ptr + f * c + j0) := by
  intro cnt
  induction cnt with
  | zero => intro f i ptr d j0 hf _; omega
  | succ n ih =>
    intro f i ptr d j0 hf hj
    rw [ivb_frames]
    cases f with
    | zero =>
      rw [ivb_frames_low src c j0 (i + 0) n (i + 1) _ _ (by omega)]
      have h0 : (ivb_chan src i c 0 ptr d).1 (0 + j0) i = src (ptr + j0) :=
        ivb_chan_hit src i c j0 0 ptr d hj
      rw [Nat.zero_add] at h0
      rw [Nat.add_zero]
      rw [h0]
      congr 1
      ring
    | succ m =>
      have hi : i + (m + 1) = (i + 1) + m := by omega
      rw [hi, ih m (i + 1) _ _ j0 (by omega) hj,
        ivb_chan_ptr src i c 0 ptr d]
      congr 1
      ring

theorem interleaved_get (src : Nat → Rat) (nf c i j : Nat)
    (hi : i < nf) (hj : j < c) :
    interleaved_to_vorbis_buffer src nf c j i = src (i * c + j) := by
  have h := ivb_frames_hit src c nf i 0 0 (fun _ _ => 0) j hi hj
  rw [Nat.zero_add] at h
  rw [interleaved_to_vorbis_buffer, h]
  congr 1
  omega

theorem winmmAllCheck : winmmRoundTripUpTo 100 = true := by decide

/-!
## Part 4: claim theorems
-/

/-- C10: for every integer volume `v` with `0 ≤ v ≤ 100`, the Winmm
mixer's volume conversion round-trips exactly —
`winmm_volume_decode (winmm_volume_encode v) = v` — and the encoded
DWORD carries the same 16-bit value in its low and high halves. -/
theorem winmm_volume_roundtrip (v : Int) (h0 : 0 ≤ v) (h1 : v ≤ 100) :
    winmm_volume_decode (winmm_volume_encode v) = v ∧
    Int.emod (winmm_volume_encode v) 65536 =
      Int.emod (Int.ediv (winmm_volume_encode v) 65536) 65536 := by
  obtain ⟨n, rfl⟩ := Int.eq_ofNat_of_zero_le h0
  have hn : n < 101 := by exact_mod_cast Int.lt_add_one_iff.mpr h1
  have hmem : n ∈ List.range 101 := List.mem_range.mpr hn
  have hall := List.all_eq_true.mp winmmAllCheck n hmem
  simp only [Bool.and_eq_true, decide_eq_true_eq] at hall
  exact hall

/-- Witness for C10 at the concrete volume 37. -/
theorem winmm_volume_roundtrip_witness :
    winmm_volume_decode (winmm_volume_encode 37) = 37 ∧
    Int.emod (winmm_volume_encode 37) 65536 =
      Int.emod (Int.ediv (winmm_volume_encode 37) 65536) 65536 :=
  winmm_volume_roundtrip 37 (by norm_num) (by norm_num)

/-- C3 counterexample: with an unparsable quality string (parse
incomplete) and a bitrate also supplied, `vorbis_encoder_configure`
fails with `InvalidQuality`, not `ConflictingMode` — the quality check
runs first, so "both present always fails with ConflictingMode" is
false as stated. -/
theorem vorbis_configure_conflict_counterexample :
    vorbis_encoder_configure sampleEncoder (some ⟨0, false⟩)
        (some ⟨128, true⟩) =
      Except.error ConfigError.InvalidQuality ∧
    vorbis_encoder_configure sampleEncoder (some ⟨0, false⟩)
        (some ⟨128, true⟩) ≠
      Except.error ConfigError.ConflictingMode := by
  refine ⟨rfl, fun hcontra => ?_⟩
  have h1 : vorbis_encoder_configure sampleEncoder (some ⟨0, false⟩)
      (some ⟨128, true⟩) = Except.error ConfigError.InvalidQuality := rfl
  rw [h1] at hcontra
  exact absurd (Except.error.inj hcontra) (by decide)

/-- C3 (amended): when both a quality and a bitrate value are present,
configuration fails — with `ConflictingMode` when the quality value is
parsable and in `[-1, 10]`, and with `InvalidQuality` otherwise; when
neither is present it fails with `MissingMode`. -/
theorem vorbis_configure_mode_errors :
    (∀ (e : vorbis_encoder) (q : strtod_result) (b : strtoll_result),
      q.complete = true → -1 ≤ q.value → q.value ≤ 10 →
      vorbis_encoder_configure e (some q) (some b) =
        Except.error ConfigError.ConflictingMode) ∧
    (∀ (e : vorbis_encoder) (q : strtod_result) (b : Option strtoll_result),
      q.complete = false ∨ q.value < -1 ∨ q.value > 10 →
      vorbis_encoder_configure e (some q) b =
        Except.error ConfigError.InvalidQuality) ∧
    (∀ e : vorbis_encoder,
      vorbis_encoder_configure e none none =
        Except.error ConfigError.MissingMode) := by
  refine ⟨fun e q b hc h1 h2 => ?_, fun e q b h => ?_, fun e => rfl⟩
  · have hcond : ¬(q.complete = false ∨ q.value < -1 ∨ q.value > 10) := by
      rw [hc]
      push_neg
      exact ⟨by decide, h1, h2⟩
    simp only [vorbis_encoder_configure]
    rw [if_neg hcond]
    rfl
  · simp only [vorbis_encoder_configure]
    rw [if_pos h]

/-- Witness for C3's amended claim at concrete inputs. -/
theorem vorbis_configure_mode_errors_witness :
    vorbis_encoder_configure sampleEncoder (some ⟨5, true⟩)
        (some ⟨128, true⟩) =
      Except.error ConfigError.ConflictingMode ∧
    vorbis_encoder_configure sampleEncoder (some ⟨11, true⟩) none =
      Except.error ConfigError.InvalidQuality ∧
    vorbis_encoder_configure sampleEncoder none none =
      Except.error ConfigError.MissingMode :=
  ⟨vorbis_configure_mode_errors.1 sampleEncoder ⟨5, true⟩ ⟨128, true⟩ rfl
      (show (-1 : Rat) ≤ 5 by norm_num) (show (5 : Rat) ≤ 10 by norm_num),
   vorbis_configure_mode_errors.2.1 sampleEncoder ⟨11, true⟩ none
      (Or.inr (Or.inr (show (11 : Rat) > 10 by norm_num))),
   vorbis_configure_mode_errors.2.2 sampleEncoder⟩

/-- C4: a quality string that parses completely to `q ∈ [-1, 10]`
(with no bitrate supplied) configures successfully, the stored quality
is `q` and the session's mode is `VariableQuality q`; a quality string
that is unparsable or parses outside `[-1, 10]` fails with
`InvalidQuality` (whatever the bitrate input). -/
theorem vorbis_configure_quality :
    (∀ (e : vorbis_encoder) (q : strtod_result),
      q.complete = true → -1 ≤ q.value → q.value ≤ 10 →
      vorbis_encoder_configure e (some q) none =
        Except.ok { e with quality := q.value } ∧
      vorbis_encoder.mode { e with quality := q.value } =
        EncodingMode.variableQuality q.value) ∧
    (∀ (e : vorbis_encoder) (q : strtod_result) (b : Option strtoll_result),
      q.complete = false ∨ q.value < -1 ∨ q.value > 10 →
      vorbis_encoder_configure e (some q) b =
        Except.error ConfigError.InvalidQuality) := by
  constructor
  · intro e q hc h1 h2
    have hcond : ¬(q.complete = false ∨ q.value < -1 ∨ q.value > 10) := by
      rw [hc]
      push_neg
      exact ⟨by decide, h1, h2⟩
    constructor
    · simp only [vorbis_encoder_configure]
      rw [if_neg hcond]
      rfl
    · simp only [vorbis_encoder.mode]
      rw [if_pos (show -1 ≤ ({ e with quality := q.value } :
        vorbis_encoder).quality from h1)]
  · intro e q b h
    simp only [vorbis_encoder_configure]
    rw [if_pos h]

/-- Witness for C4 at concrete quality values 5 (valid) and 11 (out of
range). -/
theorem vorbis_configure_quality_witness :
    vorbis_encoder_configure sampleEncoder (some ⟨5, true⟩) none =
      Except.ok { sampleEncoder with quality := (5 : Rat) } ∧
    vorbis_encoder_configure sampleEncoder (some ⟨11, true⟩) none =
      Except.error ConfigError.InvalidQuality :=
  ⟨(vorbis_configure_quality.1 sampleEncoder ⟨5, true⟩ rfl
      (show (-1 : Rat) ≤ 5 by norm_num) (show (5 : Rat) ≤ 10 by norm_num)).1,
   vorbis_configure_quality.2 sampleEncoder ⟨11, true⟩ none
      (Or.inr (Or.inr (show (11 : Rat) > 10 by norm_num)))⟩

/-- C7: `vorbis_encoder_open` forces the caller-visible format
descriptor's sample representation to float, leaves its channel count
and sample rate unchanged, and stores exactly the mutated descriptor
in the session — on the failure path as well as on success. -/
theorem vorbis_open_format (accept : Bool) (r : Nat) (e : vorbis_encoder)
    (af : audio_format) :
    (vorbis_encoder_open accept r e af).2.1.format = SampleFormat.float ∧
    (vorbis_encoder_open accept r e af).2.1.channels = af.channels ∧
    (vorbis_encoder_open accept r e af).2.1.sample_rate = af.sample_rate ∧
    (vorbis_encoder_open accept r e af).1.audio_format =
      (vorbis_encoder_open accept r e af).2.1 := by
  cases accept with
  | false => exact ⟨rfl, rfl, rfl, rfl⟩
  | true => exact ⟨rfl, rfl, rfl, rfl⟩

/-- C8: once a session is open, `write`, `flush`, `preTag` and
`updateTag` always report success, whatever the state and inputs. -/
theorem vorbis_runtime_ops_succeed (oracle : Nat → List Nat)
    (names : Nat → String) (up : String → String) (e : vorbis_encoder)
    (src : Nat → Rat) (len : Nat) (t : Tag) (r : Nat) :
    (vorbis_encoder_write oracle e src len).2 = true ∧
    (vorbis_encoder_flush e).2 = true ∧
    (vorbis_encoder_pre_tag oracle e).2 = true ∧
    (vorbis_encoder_tag names up t r e).2 = true :=
  ⟨rfl, rfl, rfl, rfl⟩

/-- C1 counterexample: `vorbis_encoder_tag` (the updateTag operation)
does not reset the codec state — starting from a session whose
end-of-stream marker is set, the marker is still set afterwards,
whereas step (1) of the claim requires it cleared.  The reset lives in
the separate `vorbis_encoder_pre_tag` operation. -/
theorem vorbis_tag_counterexample :
    eosEncoder.vd.eos = true ∧
    ¬((vorbis_encoder_tag sampleNames sampleUp sampleTag 7
        eosEncoder).1.vd.eos = false) :=
  ⟨rfl, fun h => Bool.noConfusion h⟩

/-- C1 (amended): `updateTag` restarts the container stream with the
supplied fresh identifier and re-emits the three header packets built
from the new tag's comment fields, leaving the codec state untouched;
clearing the end-of-stream marker is done by the separate `preTag`
operation, and the operation reports success. -/
theorem vorbis_tag_transition (names : Nat → String)
    (up : String → String) (t : Tag) (r : Nat) (e : vorbis_encoder) :
    (vorbis_encoder_tag names up t r e).1.vd = e.vd ∧
    (vorbis_encoder_tag names up t r e).1.stream.serial = r ∧
    (vorbis_encoder_tag names up t r e).1.stream.events =
      e.stream.events ++
        [StreamEvent.begin r, StreamEvent.packet OggPacket.ident,
         StreamEvent.packet
           (OggPacket.comments (copy_tag_to_vorbis_comment names up t)),
         StreamEvent.packet OggPacket.codebooks] ∧
    (vorbis_encoder_tag names up t r e).2 = true :=
  ⟨rfl, rfl, tag_stream_events names up t r e, rfl⟩

/-- C6: `preTag` ingests 0 frames (marking the segment end), drains
every remaining packet into the container stream, reinitializes the
analysis accumulator and working buffer from the unchanged model
descriptor (clearing the end-of-stream marker), and forces a page
flush; the stream identifier is untouched. -/
theorem vorbis_pre_tag_effect (oracle : Nat → List Nat)
    (e : vorbis_encoder) :
    (vorbis_encoder_pre_tag oracle e).1.vd.vi = e.vd.vi ∧
    (vorbis_encoder_pre_tag oracle e).1.vd.pending = [] ∧
    (vorbis_encoder_pre_tag oracle e).1.vd.frames = 0 ∧
    (vorbis_encoder_pre_tag oracle e).1.vd.eos = false ∧
    (vorbis_encoder_pre_tag oracle e).1.stream.serial = e.stream.serial ∧
    (vorbis_encoder_pre_tag oracle e).1.stream.events =
      e.stream.events ++
        (e.vd.pending ++ (oracle 0).map OggPacket.audio).map
          StreamEvent.packet ++ [StreamEvent.flushPages] ∧
    (vorbis_encoder_pre_tag oracle e).2 = true :=
  ⟨rfl, rfl, rfl, rfl, pre_tag_stream_serial oracle e,
   pre_tag_stream_events oracle e, rfl⟩

/-- C2: starting from a successfully opened session (empty prior log),
after any sequence of operations the stream log passes the
header-ordering checker: every logical stream begins with the
identification, comments and codebooks header packets in that fixed
order before any audio packet, and no audio packet is submitted
between a restart and the completion of header emission. -/
theorem vorbis_header_ordering (oracle : Nat → List Nat)
    (names : Nat → String) (up : String → String) (r : Nat)
    (e : vorbis_encoder) (af : audio_format) (ops : List EncoderOp)
    (hev : e.stream.events = []) :
    hdrCheck ((runOps oracle names up
        (vorbis_encoder_open true r e af).1 ops).stream.events) =
      some HdrMode.streaming := by
  have hopen : (vorbis_encoder_open true r e af).1.stream.events =
      e.stream.events ++
        [StreamEvent.begin r, StreamEvent.packet OggPacket.ident,
         StreamEvent.packet (OggPacket.comments []),
         StreamEvent.packet OggPacket.codebooks] := by
    simp [vorbis_encoder_open, vorbis_encoder_reinit,
      vorbis_encoder_send_header, vorbis_encoder_headerout,
      OggStream.PacketIn, OggStream.Initialize, List.append_assoc]
  have hpend : (vorbis_encoder_open true r e af).1.vd.pending = [] := rfl
  have hg : goodState (vorbis_encoder_open true r e af).1 := by
    constructor
    · rw [hopen, hev]
      rfl
    · intro p hp
      rw [hpend] at hp
      cases hp
  exact (runOps_goodState oracle names up _ ops hg).1

/-- Witness for C2: a concrete opened session with a tag update, a
write and a flush. -/
theorem vorbis_header_ordering_witness :
    hdrCheck ((runOps noOracle sampleNames sampleUp
        (vorbis_encoder_open true 3 sampleEncoder
          ⟨44100, SampleFormat.s16, 2⟩).1
        [EncoderOp.updateTag sampleTag 9, EncoderOp.write sampleSrc 16,
         EncoderOp.flush]).stream.events) =
      some HdrMode.streaming :=
  vorbis_header_ordering noOracle sampleNames sampleUp 3 sampleEncoder
    ⟨44100, SampleFormat.s16, 2⟩
    [EncoderOp.updateTag sampleTag 9, EncoderOp.write sampleSrc 16,
     EncoderOp.flush] rfl

/-- C5: along every operation sequence, no operation other than
`updateTag` changes the logical-stream serial, and (when the supplied
random serials are fresh) the serial changes exactly once per
`updateTag` event. -/
theorem vorbis_serial_unique_change :
    (∀ (oracle : Nat → List Nat) (names : Nat → String)
       (up : String → String) (e : vorbis_encoder) (op : EncoderOp),
      op.isUpdateTag = false →
      (applyOp oracle names up e op).stream.serial = e.stream.serial) ∧
    (∀ (oracle : Nat → List Nat) (names : Nat → String)
       (up : String → String) (e : vorbis_encoder) (ops : List EncoderOp),
      freshSerials oracle names up e ops = true →
      serialChanges oracle names up e ops = countTagUpdates ops) := by
  constructor
  · exact fun oracle names up e op h =>
      applyOp_serial_nonTag oracle names up e op h
  · intro oracle names up e ops h
    induction ops generalizing e with
    | nil => rfl
    | cons op rest ih =>
      cases op with
      | updateTag t r =>
        simp only [freshSerials, Bool.and_eq_true] at h
        obtain ⟨h1, h2⟩ := h
        have hr : r ≠ e.stream.serial := by
          simpa using h1
        simp only [serialChanges, applyOp_serial_tag, countTagUpdates]
        rw [if_neg hr, ih _ h2]
        omega
      | write src len =>
        simp only [freshSerials, Bool.true_and] at h
        simp only [serialChanges, countTagUpdates]
        rw [if_pos (applyOp_serial_nonTag oracle names up e
            (EncoderOp.write src len) rfl), ih _ h]
        omega
      | flush =>
        simp only [freshSerials, Bool.true_and] at h
        simp only [serialChanges, countTagUpdates]
        rw [if_pos (applyOp_serial_nonTag oracle names up e
            EncoderOp.flush rfl), ih _ h]
        omega
      | preTag =>
        simp only [freshSerials, Bool.true_and] at h
        simp only [serialChanges, countTagUpdates]
        rw [if_pos (applyOp_serial_nonTag oracle names up e
            EncoderOp.preTag rfl), ih _ h]
        omega
      | readOut n =>
        simp only [freshSerials, Bool.true_and] at h
        simp only [serialChanges, countTagUpdates]
        rw [if_pos (applyOp_serial_nonTag oracle names up e
            (EncoderOp.readOut n) rfl), ih _ h]
        omega

/-- Witness for C5 on a concrete five-operation trace containing two
tag updates with fresh serials. -/
theorem vorbis_serial_unique_change_witness :
    (applyOp noOracle sampleNames sampleUp sampleEncoder
      EncoderOp.flush).stream.serial = sampleEncoder.stream.serial ∧
    serialChanges noOracle sampleNames sampleUp sampleEncoder
        [EncoderOp.flush, EncoderOp.updateTag sampleTag 5,
         EncoderOp.preTag, EncoderOp.updateTag sampleTag 9,
         EncoderOp.readOut 3] =
      countTagUpdates
        [EncoderOp.flush, EncoderOp.updateTag sampleTag 5,
         EncoderOp.preTag, EncoderOp.updateTag sampleTag 9,
         EncoderOp.readOut 3] :=
  ⟨vorbis_serial_unique_change.1 noOracle sampleNames sampleUp
      sampleEncoder EncoderOp.flush rfl,
   vorbis_serial_unique_change.2 noOracle sampleNames sampleUp
      sampleEncoder _ (by decide)⟩

/-- C9: `write` reports exactly `length / frame_size` frames to the
analysis accumulator (trailing partial-frame bytes are discarded),
de-interleaves them as `dest[channel][frame] = src[frame * channels +
channel]`, and (with the float format `open` enforces) reads no sample
beyond the supplied byte length. -/
theorem vorbis_write_deinterleave (oracle : Nat → List Nat)
    (e : vorbis_encoder) (src : Nat → Rat) (length : Nat) :
    (vorbis_encoder_write oracle e src length).1.vd.frames =
      e.vd.frames + length / audio_format_frame_size e.audio_format ∧
    (e.audio_format.format = SampleFormat.float →
      length / audio_format_frame_size e.audio_format *
        e.audio_format.channels * 4 ≤ length) ∧
    (∀ i j : Nat,
      i < length / audio_format_frame_size e.audio_format →
      j < e.audio_format.channels →
      (vorbis_encoder_write oracle e src length).1.vd.buffer j i =
        src (i * e.audio_format.channels + j)) := by
  refine ⟨rfl, fun hf => ?_, fun i j hi hj => ?_⟩
  · have hfs : audio_format_frame_size e.audio_format =
        4 * e.audio_format.channels := by
      rw [audio_format_frame_size, hf]
      rfl
    rw [hfs]
    calc length / (4 * e.audio_format.channels) *
          e.audio_format.channels * 4 =
        length / (4 * e.audio_format.channels) *
          (4 * e.audio_format.channels) := by ring
      _ ≤ length := Nat.div_mul_le_self length _
  · have hb : (vorbis_encoder_write oracle e src length).1.vd.buffer =
        interleaved_to_vorbis_buffer src
          (length / audio_format_frame_size e.audio_format)
          e.audio_format.channels := rfl
    rw [hb]
    exact interleaved_get src _ _ i j hi hj

/-- Witness for C9: 16 bytes of 2-channel float audio are 2 frames;
channel 1 of frame 1 is sample 3. -/
theorem vorbis_write_deinterleave_witness :
    16 / audio_format_frame_size sampleEncoder.audio_format *
      sampleEncoder.audio_format.channels * 4 ≤ 16 ∧
    (vorbis_encoder_write noOracle sampleEncoder sampleSrc 16).1.vd.buffer
        1 1 =
      sampleSrc (1 * sampleEncoder.audio_format.channels + 1) :=
  ⟨(vorbis_write_deinterleave noOracle sampleEncoder sampleSrc 16).2.1 rfl,
   (vorbis_write_deinterleave noOracle sampleEncoder sampleSrc 16).2.2
      1 1 (by decide) (by decide)⟩
